import Mathlib

/-!
Shallow embedding of the TradeGPT HTTP gateway (Express app, `src/unnamed/part_001`).

Pure request-handling logic is translated into Lean functions; the outside world
(the market-data endpoint, the completion endpoint, the randomness source, the
JSON runtime) is passed in explicitly as function arguments or inductive
"outcome" values, so every handler becomes a total function from its inputs and
environment to its HTTP response.

JavaScript numbers that matter to the logic only through truthiness and
finiteness are modelled by `JsNum` (NaN, the two infinities, and finite values
as rationals); machine floating point representation is abstracted away.
-/

/-- Model of a JavaScript number as far as the gateway's logic observes it:
`NaN`, `Infinity`, `-Infinity`, or a finite value (as a rational). -/
inductive JsNum where
  | nan : JsNum
  | inf : JsNum
  | negInf : JsNum
  | fin : ℚ → JsNum
deriving DecidableEq, Repr

namespace JsNum

/-- JavaScript truthiness of a number: `NaN` and `0` are falsy, everything else
(including the infinities) is truthy. -/
def truthy : JsNum → Bool
  | nan => false
  | inf => true
  | negInf => true
  | fin q => decide (q ≠ 0)

/-- `Number.isFinite`: true exactly for the finite values. -/
def finite : JsNum → Bool
  | fin _ => true
  | _ => false

/-- Strict positivity of a JavaScript number (infinities are not finite values,
`NaN` compares false). -/
def positive : JsNum → Bool
  | fin q => decide (0 < q)
  | inf => true
  | _ => false

end JsNum

/-- `Char.toUpper` applied characterwise: the model of JavaScript
`String.prototype.toUpperCase` on the ASCII symbols this app handles. -/
def jsToUpper (s : String) : String := ⟨s.data.map Char.toUpper⟩

/-- The property names every plain object literal inherits from
`Object.prototype`: reading any of them on `{BTC:…, ETH:…, SOL:…}` yields a
truthy value (a built-in function, or for `__proto__` the prototype object
itself) rather than `undefined`. -/
def objectProtoMembers : List String :=
  ["constructor", "hasOwnProperty", "isPrototypeOf", "propertyIsEnumerable",
   "toLocaleString", "toString", "valueOf", "__proto__",
   "__defineGetter__", "__defineSetter__", "__lookupGetter__", "__lookupSetter__"]

/-- A JavaScript value as it flows through the pair computation: a string, or
a truthy member inherited from `Object.prototype`, identified by the property
name it was read from. -/
inductive JsPairVal where
  | str (s : String)
  | protoMember (name : String)
deriving DecidableEq, Repr

/-- `map[symbol]` on the object literal `{ BTC: 'BTCUSDT', ETH: 'ETHUSDT',
SOL: 'SOLUSDT' }`: an own key (case-sensitive) yields its string; any other
name is looked up along the prototype chain, so the built-in members of
`Object.prototype` yield those (truthy) inherited values; everything else is
`undefined` (`none`). -/
def mapLookup (symbol : String) : Option JsPairVal :=
  if symbol = "BTC" then some (.str "BTCUSDT")
  else if symbol = "ETH" then some (.str "ETHUSDT")
  else if symbol = "SOL" then some (.str "SOLUSDT")
  else if symbol ∈ objectProtoMembers then some (.protoMember symbol)
  else none

/-- Trading-pair value computed inside `getUsdPrice`
(`src/unnamed/part_001` lines 32–33): ``map[symbol] ||
`${symbol.toUpperCase()}USDT` ``.  Every value `mapLookup` can produce is
truthy in JavaScript (non-empty strings, built-in functions, the prototype
object), so `||` keeps it; only `undefined` falls through to the template
string. -/
def pairFor (symbol : String) : JsPairVal :=
  match mapLookup symbol with
  | some v => v
  | none => .str (jsToUpper symbol ++ "USDT")

/-- The candidate simplification named by the spec claim: always
`symbol.toUpperCase() + 'USDT'`, with no override map. -/
def pairForSimple (symbol : String) : String := jsToUpper symbol ++ "USDT"

/-- Outcome of the single `fetch` to the market-data endpoint, as observed by
`getUsdPrice`: the promise rejects (transport failure), or a response arrives
with an ok-flag and a body.  The body is either a JSON-parse failure
(`r.json()` throws) or the number `Number(j.price)` coerced from the parsed
body's `price` field. -/
inductive FetchOutcome where
  | fail (err : String)
  | resp (ok : Bool) (body : Except String JsNum)
deriving Repr

/-- `getUsdPrice` (`src/unnamed/part_001` lines 30–41): everything is wrapped
in `try { ... } catch { return null; }`; a non-ok status returns `null`; on a
parsed body the result is `Number(j.price) || null`, i.e. the coerced number if
it is truthy, else `null`.  `fetchEnv` maps the requested trading pair to the
outcome of the outbound call. -/
def getUsdPrice (fetchEnv : JsPairVal → FetchOutcome) (symbol : String) : Option JsNum :=
  match fetchEnv (pairFor symbol) with
  | .fail _ => none
  | .resp ok body =>
    if ok then
      match body with
      | .error _ => none
      | .ok p => if p.truthy then some p else none
    else none

/-- A concrete market-data environment whose response parses to `Infinity`
(e.g. a body whose `price` field is the string "Infinity"). -/
def fetchEnvInf : JsPairVal → FetchOutcome := fun _ => .resp true (.ok JsNum.inf)

/-- A concrete market-data environment whose response parses to the finite
negative number `-5`. -/
def fetchEnvNeg : JsPairVal → FetchOutcome := fun _ => .resp true (.ok (JsNum.fin (-5)))

/-- C3 counterexample: the claim says a parsed price that is not a finite
number yields the unknown marker, and every returned price is positive; but
`Number(j.price) || null` keeps `Infinity` (truthy, not finite) and `-5`
(truthy, finite, negative), returning both to the caller. -/
theorem getUsdPrice_nonfinite_returned :
    getUsdPrice fetchEnvInf "BTC" = some JsNum.inf ∧
    JsNum.inf.finite = false ∧
    getUsdPrice fetchEnvNeg "BTC" = some (JsNum.fin (-5)) ∧
    (JsNum.fin (-5)).positive = false := by
  refine ⟨rfl, rfl, ?_, by decide⟩
  decide

/-- C3 amended: `getUsdPrice` is a total function (never raises); it returns
the unknown marker `none` on transport failure, non-success status, or a
response-body parse failure, and on a parsed body it returns
`Number(j.price) || null`: the coerced number when that number is truthy
(which may be negative or infinite, not necessarily a positive finite price),
else `none`.  Equivalently, a price is returned exactly when the call
succeeded with ok status and a truthy coerced number. -/
theorem getUsdPrice_amended (fetchEnv : JsPairVal → FetchOutcome) (symbol : String) :
    (∀ p, getUsdPrice fetchEnv symbol = some p ↔
      (fetchEnv (pairFor symbol) = .resp true (.ok p) ∧ p.truthy = true)) ∧
    (∀ e, fetchEnv (pairFor symbol) = .fail e → getUsdPrice fetchEnv symbol = none) ∧
    (∀ body, fetchEnv (pairFor symbol) = .resp false body → getUsdPrice fetchEnv symbol = none) ∧
    (∀ e, fetchEnv (pairFor symbol) = .resp true (.error e) →
      getUsdPrice fetchEnv symbol = none) := by
  rcases h : fetchEnv (pairFor symbol) with e | ⟨ok, body⟩
  · refine ⟨fun p => ?_, fun e he => by simp [getUsdPrice, h], fun b hb => ?_, fun e he => ?_⟩
    · simp [getUsdPrice, h]
    · simp at hb
    · simp at he
  · rcases ok with _ | _
    · refine ⟨fun p => ?_, fun e he => ?_, fun b hb => by simp [getUsdPrice, h],
        fun e he => ?_⟩
      · simp [getUsdPrice, h]
      · simp at he
      · simp at he
    · rcases body with e | p
      · refine ⟨fun p => ?_, fun e he => ?_, fun b hb => ?_,
          fun e he => by simp [getUsdPrice, h]⟩
        · simp [getUsdPrice, h]
        · simp at he
        · simp at hb
      · have key : getUsdPrice fetchEnv symbol = if p.truthy then some p else none := by
          simp [getUsdPrice, h]
        refine ⟨fun q => ⟨?_, ?_⟩, fun e he => ?_, fun b hb => ?_, fun e he => ?_⟩
        · intro hq
          by_cases ht : p.truthy
          · rw [key, if_pos ht] at hq
            obtain rfl : p = q := Option.some.inj hq
            exact ⟨rfl, ht⟩
          · rw [key, if_neg ht] at hq
            exact absurd hq (by simp)
        · rintro ⟨henv, htr⟩
          have hpq : p = q := by
            injection henv with _ hbody
            exact Except.ok.inj hbody
          subst hpq
          rw [key, if_pos htr]
        · simp at he
        · simp at hb
        · simp at he

/-- Witness for C3: at the concrete environment that reports transport
failure, the amended theorem yields the unknown marker. -/
theorem getUsdPrice_amended_witness :
    getUsdPrice (fun _ => FetchOutcome.fail "ECONNREFUSED") "BTC" = none :=
  (getUsdPrice_amended (fun _ => FetchOutcome.fail "ECONNREFUSED") "BTC").2.1
    "ECONNREFUSED" rfl

/-- JavaScript regex word character (`\w`): ASCII letter, digit, or underscore. -/
def isWordChar (c : Char) : Bool := c.isAlpha || c.isDigit || c = '_'

/-- Case-insensitive character comparison, the effect of the regex `i` flag on
the ASCII ticker symbols. -/
def eqCI (a b : Char) : Bool := a.toLower = b.toLower

/-- `sym` matches the front of `l` case-insensitively. -/
def ciStartsWith : List Char → List Char → Bool
  | [], _ => true
  | _ :: _, [] => false
  | a :: as, b :: bs => eqCI a b && ciStartsWith as bs

/-- The two lists agree characterwise up to case. -/
def ciListEq : List Char → List Char → Bool
  | [], [] => true
  | a :: as, b :: bs => eqCI a b && ciListEq as bs
  | _, _ => false

/-- Word-boundary condition (`\b`) against the text before the match position:
satisfied at the start of the string or after a non-word character. -/
def boundaryBefore (pre : List Char) : Bool :=
  match pre.getLast? with
  | none => true
  | some c => !isWordChar c

/-- Word-boundary condition (`\b`) against the text after the match:
satisfied at the end of the string or before a non-word character. -/
def boundaryAfter : List Char → Bool
  | [] => true
  | c :: _ => !isWordChar c

/-- The whole-word predicate at position `i` of the prompt: the symbol matches
there case-insensitively, between word boundaries. -/
def matchAt (sym prompt : List Char) (i : ℕ) : Bool :=
  boundaryBefore (prompt.take i) && ciStartsWith sym (prompt.drop i) &&
    boundaryAfter ((prompt.drop i).drop sym.length)

/-- Model of `new RegExp('\\b' + s + '\\b', 'i').test(prompt)`
(`src/unnamed/part_001` line 54) for an alphabetic symbol `s`: some position
of the prompt carries a whole-word, case-insensitive occurrence of `s`. -/
def regexTestCI (sym prompt : List Char) : Bool :=
  (List.range (prompt.length + 1)).any fun i => matchAt sym prompt i

/-- The leftmost position at which the whole-word pattern matches, if any:
used to talk about the order in which symbols are first encountered. -/
def firstMatchIdx (sym prompt : List Char) : Option ℕ :=
  (List.range (prompt.length + 1)).find? fun i => matchAt sym prompt i

/-- The fixed allow-list of ticker symbols (`src/unnamed/part_001` line 53),
in its source iteration order. -/
def tickers : List String := ["BTC", "ETH", "SOL", "BNB", "AVAX", "ARB", "OP", "SUI", "TON", "DOGE"]

/-- `found` (`src/unnamed/part_001` line 54): the allow-listed symbols whose
whole-word regex tests positive on the prompt, in allow-list order. -/
def foundTickers (prompt : String) : List String :=
  tickers.filter fun s => regexTestCI s.data prompt.data

/-- `found.slice(0, 3)` (`src/unnamed/part_001` line 56): the symbols actually
passed to the price lookup. -/
def cappedTickers (prompt : String) : List String := (foundTickers prompt).take 3

/-- C10 counterexample: at the symbol string `"constructor"` the lookup
`map["constructor"]` resolves through the prototype chain to the truthy
inherited `Object.prototype.constructor`, so `||` keeps it and the computed
pair is not the string `"CONSTRUCTORUSDT"` — the claimed equivalence with
`symbol.toUpperCase() + "USDT"` fails, and the override map is not a plain
three-entry dictionary. -/
theorem pairFor_proto_lookup :
    pairFor "constructor" = .protoMember "constructor" ∧
    pairFor "constructor" ≠ .str (pairForSimple "constructor") :=
  ⟨by decide, by decide⟩

/-- C10 amended: for every symbol string that is neither an own key nor the
name of a built-in `Object.prototype` member, the computed pair equals
`symbol.toUpperCase() + "USDT"`; at a prototype-member name the lookup yields
the inherited member instead; and on every symbol the caller can actually
pass — the 10 allow-listed tickers — the pair does equal the simple form, so
the override map is behaviorally redundant on the reachable domain. -/
theorem pairFor_amended (symbol : String) :
    (symbol ∉ objectProtoMembers → pairFor symbol = .str (pairForSimple symbol)) ∧
    (symbol ∈ objectProtoMembers → pairFor symbol = .protoMember symbol) ∧
    (∀ t ∈ tickers, pairFor t = .str (pairForSimple t)) := by
  refine ⟨?_, ?_, by decide⟩
  · intro hn
    by_cases h1 : symbol = "BTC"
    · subst h1; decide
    · by_cases h2 : symbol = "ETH"
      · subst h2; decide
      · by_cases h3 : symbol = "SOL"
        · subst h3; decide
        · simp [pairFor, mapLookup, pairForSimple, h1, h2, h3, hn]
  · intro hm
    have h1 : symbol ≠ "BTC" := by rintro rfl; revert hm; decide
    have h2 : symbol ≠ "ETH" := by rintro rfl; revert hm; decide
    have h3 : symbol ≠ "SOL" := by rintro rfl; revert hm; decide
    simp [pairFor, mapLookup, h1, h2, h3, hm]

/-- Witness for C10: at the allow-listed symbol `"BTC"` the amended theorem
gives the simple uppercase pair. -/
theorem pairFor_amended_witness :
    pairFor "BTC" = .str (pairForSimple "BTC") :=
  (pairFor_amended "BTC").1 (by decide)

/-- Declarative whole-word occurrence, in the spec's vocabulary: the prompt
splits as `pre ++ mid ++ post` where `mid` equals the symbol up to case, the
character ending `pre` (if any) is a non-word character, and the character
starting `post` (if any) is a non-word character. -/
def OccursWholeWord (sym prompt : List Char) : Prop :=
  ∃ pre mid post, prompt = pre ++ (mid ++ post) ∧ ciListEq sym mid = true ∧
    (∀ c, pre.getLast? = some c → isWordChar c = false) ∧
    (∀ c, post.head? = some c → isWordChar c = false)

theorem ciListEq_length {a b : List Char} (h : ciListEq a b = true) :
    a.length = b.length := by
  induction a generalizing b with
  | nil =>
    cases b with
    | nil => rfl
    | cons y ys => simp [ciListEq] at h
  | cons x xs ih =>
    cases b with
    | nil => simp [ciListEq] at h
    | cons y ys =>
      simp only [ciListEq, Bool.and_eq_true] at h
      simp [ih h.2]

theorem ciStartsWith_of_ciListEq {sym mid : List Char} (post : List Char)
    (h : ciListEq sym mid = true) : ciStartsWith sym (mid ++ post) = true := by
  induction sym generalizing mid with
  | nil => simp [ciStartsWith]
  | cons a as ih =>
    cases mid with
    | nil => simp [ciListEq] at h
    | cons b bs =>
      simp only [ciListEq, Bool.and_eq_true] at h
      simp [ciStartsWith, h.1, ih h.2]

theorem ciStartsWith_split {sym l : List Char} (h : ciStartsWith sym l = true) :
    ∃ mid post, l = mid ++ post ∧ ciListEq sym mid = true := by
  induction sym generalizing l with
  | nil => exact ⟨[], l, rfl, rfl⟩
  | cons a as ih =>
    cases l with
    | nil => simp [ciStartsWith] at h
    | cons b bs =>
      simp only [ciStartsWith, Bool.and_eq_true] at h
      obtain ⟨mid, post, heq, hm⟩ := ih h.2
      exact ⟨b :: mid, post, by simp [heq], by simp [ciListEq, h.1, hm]⟩

theorem boundaryBefore_iff (pre : List Char) :
    boundaryBefore pre = true ↔ ∀ c, pre.getLast? = some c → isWordChar c = false := by
  unfold boundaryBefore
  cases h : pre.getLast? with
  | none => simp
  | some c => simp

theorem boundaryAfter_iff (post : List Char) :
    boundaryAfter post = true ↔ ∀ c, post.head? = some c → isWordChar c = false := by
  cases post <;> simp [boundaryAfter]

/-- The executable regex test agrees with the declarative whole-word
occurrence predicate. -/
theorem regexTestCI_iff (sym prompt : List Char) :
    regexTestCI sym prompt = true ↔ OccursWholeWord sym prompt := by
  unfold regexTestCI OccursWholeWord
  rw [List.any_eq_true]
  constructor
  · rintro ⟨i, hi, hmatch⟩
    simp only [matchAt, Bool.and_eq_true] at hmatch
    obtain ⟨⟨hb, hs⟩, ha⟩ := hmatch
    obtain ⟨mid, post, hsplit, hm⟩ := ciStartsWith_split hs
    refine ⟨prompt.take i, mid, post, ?_, hm, (boundaryBefore_iff _).1 hb, ?_⟩
    · rw [← hsplit, List.take_append_drop]
    · rw [hsplit, ciListEq_length hm, List.drop_left] at ha
      exact (boundaryAfter_iff _).1 ha
  · rintro ⟨pre, mid, post, hsplit, hm, hpre, hpost⟩
    refine ⟨pre.length, ?_, ?_⟩
    · rw [List.mem_range]
      have hle : pre.length ≤ prompt.length := by
        rw [hsplit]; simp
      omega
    · simp only [matchAt, Bool.and_eq_true]
      rw [hsplit]
      refine ⟨⟨?_, ?_⟩, ?_⟩
      · rw [List.take_left]
        exact (boundaryBefore_iff _).2 hpre
      · rw [List.drop_left]
        exact ciStartsWith_of_ciListEq post hm
      · rw [List.drop_left, ciListEq_length hm, List.drop_left]
        exact (boundaryAfter_iff _).2 hpost

set_option maxRecDepth 4000

/-- C4 counterexample: in the prompt
`"DOGE dipped before BTC, ETH and SOL rallied"` the symbol DOGE is the first
encountered (whole-word match at position 0, before BTC at position 19), yet
the handler passes `["BTC", "ETH", "SOL"]` to the price lookup — the symbols
are taken in allow-list iteration order and capped there, so DOGE is dropped
entirely and the result is not in prompt scan order. -/
theorem cappedTickers_not_scan_order :
    cappedTickers "DOGE dipped before BTC, ETH and SOL rallied" = ["BTC", "ETH", "SOL"] ∧
    firstMatchIdx "DOGE".data "DOGE dipped before BTC, ETH and SOL rallied".data = some 0 ∧
    firstMatchIdx "BTC".data "DOGE dipped before BTC, ETH and SOL rallied".data = some 19 ∧
    "DOGE" ∉ cappedTickers "DOGE dipped before BTC, ETH and SOL rallied" :=
  ⟨by decide, by decide, by decide, by decide⟩

/-- C4 amended: the extractor returns exactly the allow-listed symbols that
occur in the prompt as whole words, matched case-insensitively (no
partial-word matches), and at most the first 3 of them — but in allow-list
iteration order (the fixed order of the `tickers` array), not in the order
first encountered in the prompt. -/
theorem cappedTickers_amended (prompt : String) :
    (∀ s, s ∈ foundTickers prompt ↔ s ∈ tickers ∧ OccursWholeWord s.data prompt.data) ∧
    cappedTickers prompt = (foundTickers prompt).take 3 ∧
    (cappedTickers prompt).length ≤ 3 ∧
    (cappedTickers prompt).Sublist tickers := by
  refine ⟨fun s => ?_, rfl, ?_, ?_⟩
  · simp only [foundTickers, List.mem_filter, regexTestCI_iff]
  · exact List.length_take_le 3 (foundTickers prompt)
  · exact (List.take_sublist _ _).trans (List.filter_sublist _)

/-- `toFixed(2)` on a finite value: optional sign, integer part, a dot, and
exactly two fraction digits, rounding the exact rational at the second
decimal (machine-double representation effects are abstracted away). -/
def fixed2 (q : ℚ) : String :=
  let n : ℕ := (round (|q| * 100)).toNat
  (if q < 0 then "-" else "") ++ toString (n / 100) ++ "." ++
    (if n % 100 < 10 then "0" else "") ++ toString (n % 100)

/-- `v?.toFixed(2)` for a stored JavaScript number (JS stringifies the
non-finite values as shown). -/
def jsToFixed2 : JsNum → String
  | .nan => "NaN"
  | .inf => "Infinity"
  | .negInf => "-Infinity"
  | .fin q => fixed2 q

/-- `array.join(sep)` on a list of strings. -/
def joinSep (sep : String) : List String → String
  | [] => ""
  | [x] => x
  | x :: y :: ys => x ++ sep ++ joinSep sep (y :: ys)

/-- One entry of the live-price clause (`src/unnamed/part_001` line 59):
`` `${k} ~ ${v?.toFixed(2) ?? 'n/a'}` ``. -/
def entryText (e : String × Option JsNum) : String :=
  e.1 ++ " ~ " ++ (match e.2 with | some v => jsToFixed2 v | none => "n/a")

/-- `priceLine` (`src/unnamed/part_001` lines 58–60): emitted whenever the
`prices` object has at least one key — i.e. whenever at least one symbol was
looked up — regardless of whether any lookup produced a known price. -/
def priceLine (prices : List (String × Option JsNum)) : String :=
  if prices.length ≠ 0 then
    "Approx live prices (USDT): " ++ joinSep ", " (prices.map entryText) ++ "."
  else ""

/-- The number of resolved quotes that carry a known price. -/
def knownCount (prices : List (String × Option JsNum)) : ℕ :=
  (prices.filter fun e => e.2.isSome).length

/-- The composed system instruction (`src/unnamed/part_001` lines 62–69): the
four constant persona rules, the BTC/ETH/SOL preference, and the price line,
joined with single spaces (note the join keeps the empty price-line slot). -/
def askSystem (prices : List (String × Option JsNum)) : String :=
  joinSep " "
    [ "You are TradeGPT, a concise trading mentor for crypto.",
      "Answer in this structure: Definition → Price context → Confirmation → Risk → Disclaimer.",
      "When quoting price levels, ONLY use levels given by user or live context injected here; otherwise speak in relative terms (recent swing high/low, % move, EMA retest, OB zone).",
      "Do not invent dollar amounts.",
      "Prefer BTC/ETH/SOL examples when relevant.",
      priceLine prices ]

theorem joinSep_contains_of_mem (sep : String) {x : String} {l : List String} (hx : x ∈ l) :
    ∃ a b, (joinSep sep l).data = a ++ (x.data ++ b) := by
  induction l with
  | nil => cases hx
  | cons y ys ih =>
    cases ys with
    | nil =>
      rw [List.mem_singleton] at hx
      subst hx
      exact ⟨[], [], by simp [joinSep]⟩
    | cons z zs =>
      rcases List.mem_cons.1 hx with rfl | hmem
      · exact ⟨[], (sep ++ joinSep sep (z :: zs)).data,
          by simp [joinSep, String.data_append]⟩
      · obtain ⟨a, b, hab⟩ := ih hmem
        refine ⟨(y ++ sep).data ++ a, b, ?_⟩
        simp only [joinSep, String.data_append] at hab ⊢
        rw [hab]
        simp [List.append_assoc]

/-- C2 counterexample: a single resolved quote whose lookup failed (unknown
price) still produces the live-price clause, with an `n/a` placeholder, even
though zero quotes have a known price. -/
theorem priceLine_unknown_only_clause :
    priceLine [("BTC", none)] = "Approx live prices (USDT): BTC ~ n/a." ∧
    knownCount [("BTC", none)] = 0 :=
  ⟨by decide, by decide⟩

/-- C2 amended: the live-price clause is omitted exactly when no symbol was
looked up at all (the quote list is empty); whenever at least one symbol was
looked up, the composer emits exactly one comma-joined clause listing every
looked-up symbol — those with a known price formatted to 2 decimal places and
those without shown as `n/a`. -/
theorem priceLine_amended (prices : List (String × Option JsNum)) :
    (priceLine prices = "" ↔ prices = []) ∧
    (prices ≠ [] → priceLine prices =
      "Approx live prices (USDT): " ++ joinSep ", " (prices.map entryText) ++ ".") ∧
    (∀ e ∈ prices, ∃ a b, (priceLine prices).data = a ++ ((entryText e).data ++ b)) ∧
    (∀ sym v, entryText (sym, some v) = sym ++ " ~ " ++ jsToFixed2 v) ∧
    (∀ sym, entryText (sym, none) = sym ++ " ~ " ++ "n/a") := by
  have hform : prices ≠ [] → priceLine prices =
      "Approx live prices (USDT): " ++ joinSep ", " (prices.map entryText) ++ "." := by
    intro hne
    rw [priceLine, if_pos]
    simpa using hne
  refine ⟨?_, hform, ?_, fun sym v => rfl, fun sym => rfl⟩
  · constructor
    · intro h
      by_contra hne
      rw [hform hne] at h
      have h2 := congrArg String.data h
      simp [String.data_append] at h2
    · rintro rfl
      rfl
  · intro e he
    have hne : prices ≠ [] := by
      rintro rfl
      cases he
    obtain ⟨a, b, hab⟩ :=
      joinSep_contains_of_mem ", " (List.mem_map_of_mem entryText he)
    refine ⟨"Approx live prices (USDT): ".data ++ a, b ++ ".".data, ?_⟩
    rw [hform hne]
    simp only [String.data_append]
    rw [hab]
    simp [List.append_assoc]

/-- Witness for C2: at a one-quote list the amended theorem produces the
single clause. -/
theorem priceLine_amended_witness :
    priceLine [("BTC", some (JsNum.fin 9))] =
      "Approx live prices (USDT): " ++
        joinSep ", " ([("BTC", some (JsNum.fin 9))].map entryText) ++ "." :=
  (priceLine_amended [("BTC", some (JsNum.fin 9))]).2.1 (List.cons_ne_nil _ _)

/-- The JSON body of a `POST /api/tradegpt/ask` request:
`{ prompt: string?, model: string? }` with both fields possibly absent. -/
structure AskRequestBody where
  prompt : Option String
  model : Option String

/-- The fields of the parsed completion response the ask handler reads:
`data.choices?.[0]?.message?.content` and `data.usage?.total_tokens`. -/
structure CompletionData where
  firstContent : Option String
  totalTokens : Option Int

/-- Outcome of the completion `fetch` in the ask handler: the promise rejects
(transport failure), or a response arrives with an ok-flag, its raw body text
(what `r.text()` would yield), and the result of `r.json()` on that body. -/
inductive AskUpstreamOutcome where
  | fetchThrow (err : String)
  | resp (ok : Bool) (bodyText : String) (json : Except String CompletionData)

/-- The payload the ask handler sends upstream (`src/unnamed/part_001` lines
77–84): model id, temperature 0.2, and the system-then-user message pair. -/
structure AskPayload where
  model : String
  temperature : ℚ
  systemContent : String
  userContent : String
deriving Repr

/-- JSON body of the ask route's response, one constructor per `res.json`
call site in the handler. -/
inductive AskResponseBody where
  | missingPrompt
  | openaiError (detail : String)
  | serverError (detail : String)
  | success (reply : String) (tokens : Option Int) (cost : Option ℚ)
      (live : List (String × Option JsNum))

/-- Observable outcome of one ask request: HTTP status, response body, the
symbols passed to the price lookup (in call order), and the completion
payload if one was dispatched. -/
structure AskOutcome where
  status : ℕ
  body : AskResponseBody
  priceSymbols : List String
  payloadSent : Option AskPayload

/-- JavaScript `x || ''` on an optional string. -/
def jsOrEmpty : Option String → String
  | none => ""
  | some s => s

/-- The `POST /api/tradegpt/ask` handler (`src/unnamed/part_001` lines
47–95): reject a falsy prompt with 400 before any outbound call; otherwise
extract tickers, look up prices, compose the system instruction, dispatch the
completion request, and map the upstream outcome to 502 / 500 / 200 exactly
as the route does.  `reqBody = none` models a request without a JSON body
(`req.body || {}`). -/
def askHandler (cfgModel : String) (reqBody : Option AskRequestBody)
    (fetchEnv : JsPairVal → FetchOutcome) (upstream : AskUpstreamOutcome) : AskOutcome :=
  match (reqBody.getD ⟨none, none⟩).prompt with
  | none => ⟨400, .missingPrompt, [], none⟩
  | some prompt =>
    if prompt = "" then ⟨400, .missingPrompt, [], none⟩
    else
      let syms := cappedTickers prompt
      let prices := syms.map fun s => (s, getUsdPrice fetchEnv s)
      let payload : AskPayload :=
        ⟨(reqBody.getD ⟨none, none⟩).model.getD cfgModel, 2 / 10, askSystem prices, prompt⟩
      match upstream with
      | .fetchThrow e => ⟨500, .serverError e, syms, some payload⟩
      | .resp ok bodyText json =>
        if ok then
          match json with
          | .error e => ⟨500, .serverError e, syms, some payload⟩
          | .ok d =>
            ⟨200, .success (jsOrEmpty d.firstContent) d.totalTokens none prices, syms,
              some payload⟩
        else ⟨502, .openaiError bodyText, syms, some payload⟩

/-- C6: a missing or empty prompt is rejected with status 400 and
`{ error: 'Missing prompt' }`, and neither a price lookup nor the completion
dispatch happens. -/
theorem askHandler_missing_prompt (cfgModel : String) (reqBody : Option AskRequestBody)
    (fetchEnv : JsPairVal → FetchOutcome) (upstream : AskUpstreamOutcome)
    (h : (reqBody.getD ⟨none, none⟩).prompt = none ∨
      (reqBody.getD ⟨none, none⟩).prompt = some "") :
    askHandler cfgModel reqBody fetchEnv upstream =
      ⟨400, .missingPrompt, [], none⟩ := by
  rcases h with h | h <;> simp [askHandler, h]

/-- Witness for C6: a request with no JSON body at all is rejected without
touching either upstream. -/
theorem askHandler_missing_prompt_witness :
    askHandler "gpt-4o-mini" none (fun _ => .fail "unused") (.fetchThrow "unused") =
      ⟨400, .missingPrompt, [], none⟩ :=
  askHandler_missing_prompt "gpt-4o-mini" none (fun _ => .fail "unused")
    (.fetchThrow "unused") (Or.inl rfl)

/-- C5: when the upstream completion call returns a non-success status, the
handler responds 502 with `{ error: 'OpenAI error', detail }` where `detail`
is the raw upstream response body text, verbatim. -/
theorem askHandler_upstream_error (cfgModel : String) (reqBody : Option AskRequestBody)
    (fetchEnv : JsPairVal → FetchOutcome) (bodyText : String)
    (json : Except String CompletionData) (p : String)
    (hp : (reqBody.getD ⟨none, none⟩).prompt = some p) (hne : p ≠ "") :
    (askHandler cfgModel reqBody fetchEnv (.resp false bodyText json)).status = 502 ∧
    (askHandler cfgModel reqBody fetchEnv (.resp false bodyText json)).body =
      .openaiError bodyText := by
  constructor <;> simp [askHandler, hp, hne]

/-- Witness for C5: a stubbed upstream returning a failure status with body
text `"boom"` yields 502 and that exact detail. -/
theorem askHandler_upstream_error_witness :
    (askHandler "gpt-4o-mini" (some ⟨some "hello", none⟩) (fun _ => .fail "unused")
      (.resp false "boom" (.error "not json"))).status = 502 ∧
    (askHandler "gpt-4o-mini" (some ⟨some "hello", none⟩) (fun _ => .fail "unused")
      (.resp false "boom" (.error "not json"))).body =
        AskResponseBody.openaiError "boom" :=
  askHandler_upstream_error "gpt-4o-mini" (some ⟨some "hello", none⟩)
    (fun _ => .fail "unused") "boom" (.error "not json") "hello" rfl (by decide)

/-- C7: when the upstream completion call succeeds and its body parses, the
handler responds 200 with `{ reply, tokens, cost, live }`: `reply` is the
first completion's message text (empty string if absent), `tokens` the
reported total token count (null if absent), `cost` is always null, and
`live` maps each looked-up symbol, in lookup order, to that symbol's price
lookup result (a number or null). -/
theorem askHandler_success (cfgModel : String) (reqBody : Option AskRequestBody)
    (fetchEnv : JsPairVal → FetchOutcome) (bodyText : String) (d : CompletionData)
    (p : String) (hp : (reqBody.getD ⟨none, none⟩).prompt = some p) (hne : p ≠ "") :
    (askHandler cfgModel reqBody fetchEnv (.resp true bodyText (.ok d))).status = 200 ∧
    (askHandler cfgModel reqBody fetchEnv (.resp true bodyText (.ok d))).body =
      .success (jsOrEmpty d.firstContent) d.totalTokens none
        ((cappedTickers p).map fun s => (s, getUsdPrice fetchEnv s)) := by
  constructor <;> simp [askHandler, hp, hne]

/-- Witness for C7: a stubbed successful completion produces 200 with the
stubbed reply, the stubbed token count, a null cost, and the looked-up
quotes. -/
theorem askHandler_success_witness :
    (askHandler "gpt-4o-mini" (some ⟨some "hello", none⟩) (fun _ => .fail "down")
      (.resp true "{}" (.ok ⟨some "hi!", some 42⟩))).status = 200 ∧
    (askHandler "gpt-4o-mini" (some ⟨some "hello", none⟩) (fun _ => .fail "down")
      (.resp true "{}" (.ok ⟨some "hi!", some 42⟩))).body =
        AskResponseBody.success (jsOrEmpty (some "hi!")) (some 42) none
          ((cappedTickers "hello").map fun s =>
            (s, getUsdPrice (fun _ => FetchOutcome.fail "down") s)) :=
  askHandler_success "gpt-4o-mini" (some ⟨some "hello", none⟩) (fun _ => .fail "down")
    "{}" ⟨some "hi!", some 42⟩ "hello" rfl (by decide)

/-- A JSON value, as produced by the runtime's `JSON.parse`. -/
inductive JsonVal where
  | null
  | bool (b : Bool)
  | num (q : ℚ)
  | str (s : String)
  | arr (items : List JsonVal)
  | obj (fields : List (String × JsonVal))

/-- The fixed in-memory quiz bank (`src/unnamed/part_001` lines 122–126),
transcribed item by item as JSON objects. -/
def bank : List JsonVal :=
  [ .obj [("type", .str "image_mcq"), ("img", .str "https://i.imgur.com/0Z9z9zG.png"),
      ("q", .str "Which candle shows a bullish engulfing?"),
      ("opts", .arr [.str "A", .str "B", .str "C"]), ("a", .num 1)],
    .obj [("type", .str "mcq"),
      ("q", .str "A valid 1H order block is usually confirmed after…"),
      ("opts", .arr [.str "a gap down", .str "mitigation + retest + BOS", .str "RSI > 60"]),
      ("a", .num 1)],
    .obj [("type", .str "mcq"), ("q", .str "Bullish RSI divergence means…"),
      ("opts", .arr [.str "Price LL, RSI HL", .str "Price HL, RSI LL", .str "Price HH, RSI HH"]),
      ("a", .num 0)] ]

/-- JSON body of the quiz route's response. -/
inductive QuizResponseBody where
  | json (v : JsonVal)
  | serverError (detail : String)

/-- Observable outcome of one quiz request: HTTP status and response body. -/
structure QuizResult where
  status : ℕ
  body : QuizResponseBody

/-- `Math.floor(Math.random() * bank.length)` (`src/unnamed/part_001` line
127) for a randomness-source draw `rand ∈ [0, 1)`. -/
def staticIndex (rand : ℚ) : ℕ := (⌊rand * 3⌋).toNat

/-- The static-mode selection: `bank[Math.floor(Math.random() * bank.length)]`
served with status 200. -/
def staticPick (rand : ℚ) : QuizResult :=
  ⟨200, .json (bank.getD (staticIndex rand) JsonVal.null)⟩

/-- The part of the quiz-generation completion response the handler reads:
`data.choices?.[0]?.message?.content`. -/
structure QuizReplyEnvelope where
  firstContent : Option String

/-- Outcome of the completion `fetch` in the quiz handler: the promise
rejects (transport failure), or a response arrives with an ok-flag and the
result of `r.json()`. -/
inductive QuizUpstreamOutcome where
  | fetchThrow (err : String)
  | resp (ok : Bool) (json : Except String QuizReplyEnvelope)

/-- `data.choices?.[0]?.message?.content || '{}'` (`src/unnamed/part_001`
line 118): the text handed to `JSON.parse`. -/
def quizReplyText (content : Option String) : String :=
  if jsOrEmpty content = "" then "{}" else jsOrEmpty content

/-- The `GET /api/tradegpt/quiz` handler (`src/unnamed/part_001` lines
98–132).  `quizMode` is the resolved `process.env.QUIZ_MODE || 'static'`;
`jsonParse` models the runtime's deterministic `JSON.parse`, returning the
parsed value or a thrown-error description; `rand` is the `Math.random()`
draw used if the static bank is reached.  In llm mode a transport failure or
an `r.json()` failure throws inside the route's `try` and lands in the outer
`catch` (500); only a non-ok status or a `JSON.parse` failure on the reply
text falls through to the static bank; a parsed reply is returned as-is. -/
def quizHandler (quizMode : String) (jsonParse : String → Except String JsonVal)
    (upstream : QuizUpstreamOutcome) (rand : ℚ) : QuizResult :=
  if quizMode = "llm" then
    match upstream with
    | .fetchThrow e => ⟨500, .serverError e⟩
    | .resp ok json =>
      if ok then
        match json with
        | .error e => ⟨500, .serverError e⟩
        | .ok env =>
          match jsonParse (quizReplyText env.firstContent) with
          | .ok v => ⟨200, .json v⟩
          | .error _ => staticPick rand
      else staticPick rand
  else staticPick rand

/-- First binding of a key in a JSON object's field list. -/
def fieldOf (k : String) : List (String × JsonVal) → Option JsonVal
  | [] => none
  | (k₂, v) :: rest => if k₂ = k then some v else fieldOf k rest

/-- Modelled from the spec: the §3 QuizItem schema invariant — the value is an
object tagged `mcq` or `image_mcq` whose `opts` is a sequence of exactly 3
texts and whose answer index `a` is an integer that indexes validly into
`opts` (0..2).  The repository contains no such check; this definition exists
only to state that the handler can surface values violating it. -/
def validQuizItem (v : JsonVal) : Bool :=
  match v with
  | .obj fields =>
    (match fieldOf "type" fields with
     | some (.str t) => t = "mcq" || t = "image_mcq"
     | _ => false) &&
    (match fieldOf "opts" fields with
     | some (.arr opts) => opts.length = 3 &&
       (opts.all fun o => match o with | .str _ => true | _ => false)
     | _ => false) &&
    (match fieldOf "a" fields with
     | some (.num a) => a.den = 1 && decide ((0 : ℚ) ≤ a) && decide (a < 3)
     | _ => false)
  | _ => false

/-- Value of one decimal digit character. -/
def digitVal (c : Char) : ℕ := c.toNat - '0'.toNat

/-- Value of a decimal digit run. -/
def digitsVal (cs : List Char) : ℕ := cs.foldl (fun a c => a * 10 + digitVal c) 0

/-- Split a numeric literal at the first exponent marker `e`/`E`, if any. -/
def splitExpMarker : List Char → List Char × Option (List Char)
  | [] => ([], none)
  | c :: cs =>
    if c = 'e' ∨ c = 'E' then ([], some cs)
    else
      let (m, e) := splitExpMarker cs
      (c :: m, e)

/-- Parse the unsigned decimal mantissa forms `D+`, `D+.D*`, `.D+`. -/
def parseMantissa (cs : List Char) : Option ℚ :=
  let ip := cs.takeWhile Char.isDigit
  let rest := cs.dropWhile Char.isDigit
  match rest with
  | [] => if ip.isEmpty then none else some (digitsVal ip)
  | '.' :: fp =>
    if fp.all Char.isDigit && !(ip.isEmpty && fp.isEmpty) then
      some ((digitsVal ip : ℚ) + (digitsVal fp : ℚ) / (10 : ℚ) ^ fp.length)
    else none
  | _ => none

/-- Parse an optionally signed decimal exponent. -/
def parseExponent (cs : List Char) : Option ℤ :=
  match cs with
  | '+' :: ds =>
    if ds.isEmpty || !ds.all Char.isDigit then none else some (digitsVal ds)
  | '-' :: ds =>
    if ds.isEmpty || !ds.all Char.isDigit then none else some (-(digitsVal ds : ℤ))
  | ds =>
    if ds.isEmpty || !ds.all Char.isDigit then none else some (digitsVal ds)

/-- Parse an unsigned decimal literal with optional exponent part. -/
def parseDecLiteral (cs : List Char) : Option ℚ :=
  match splitExpMarker cs with
  | (m, none) => parseMantissa m
  | (m, some e) =>
    match parseMantissa m, parseExponent e with
    | some q, some z => some (q * (10 : ℚ) ^ z)
    | _, _ => none

/-- The WhiteSpace and LineTerminator characters JavaScript's `Number`
coercion strips from both ends: tab, LF, VT, FF, CR, space, NBSP, Ogham
space, the U+2000–U+200A spaces, LS, PS, NNBSP, MMSP, ideographic space, and
the BOM. -/
def isJsWhitespace (c : Char) : Bool :=
  c.toNat = 0x9 || c.toNat = 0xA || c.toNat = 0xB || c.toNat = 0xC || c.toNat = 0xD ||
  c.toNat = 0x20 || c.toNat = 0xA0 || c.toNat = 0x1680 ||
  (decide (0x2000 ≤ c.toNat) && decide (c.toNat ≤ 0x200A)) ||
  c.toNat = 0x2028 || c.toNat = 0x2029 || c.toNat = 0x202F || c.toNat = 0x205F ||
  c.toNat = 0x3000 || c.toNat = 0xFEFF

/-- Leading/trailing-whitespace trim, at the character-list level. -/
def jsTrim (s : String) : List Char :=
  ((s.data.dropWhile isJsWhitespace).reverse.dropWhile isJsWhitespace).reverse

/-- Hexadecimal digit test. -/
def isHexDigit (c : Char) : Bool :=
  c.isDigit || (decide ('a' ≤ c) && decide (c ≤ 'f')) ||
    (decide ('A' ≤ c) && decide (c ≤ 'F'))

/-- Value of one hexadecimal digit character. -/
def hexDigitVal (c : Char) : ℕ :=
  if c.isDigit then digitVal c
  else if decide ('a' ≤ c) && decide (c ≤ 'f') then c.toNat - 'a'.toNat + 10
  else c.toNat - 'A'.toNat + 10

/-- Value of a digit run in the given radix, with the given per-digit value. -/
def radixVal (radix : ℕ) (val : Char → ℕ) (cs : List Char) : ℕ :=
  cs.foldl (fun a c => a * radix + val c) 0

/-- Parse JavaScript's non-decimal integer literal forms `0x…`/`0X…` (hex),
`0o…`/`0O…` (octal) and `0b…`/`0B…` (binary); per the grammar these admit no
sign and need at least one digit. -/
def parseRadix (cs : List Char) : Option ℚ :=
  match cs with
  | '0' :: x :: ds =>
    if x = 'x' ∨ x = 'X' then
      if !ds.isEmpty && ds.all isHexDigit then
        some ((radixVal 16 hexDigitVal ds : ℕ) : ℚ)
      else none
    else if x = 'o' ∨ x = 'O' then
      if !ds.isEmpty && ds.all (fun c => decide ('0' ≤ c) && decide (c ≤ '7')) then
        some ((radixVal 8 digitVal ds : ℕ) : ℚ)
      else none
    else if x = 'b' ∨ x = 'B' then
      if !ds.isEmpty && ds.all (fun c => c == '0' || c == '1') then
        some ((radixVal 2 digitVal ds : ℕ) : ℚ)
      else none
    else none
  | _ => none

/-- Model of the JavaScript `Number(string)` coercion: after trimming JS
whitespace, the empty string is 0, an unsigned hex/octal/binary literal is
its value, an optional sign followed by `Infinity` or a decimal literal
(with optional fraction and exponent) is that value, and anything else is
`NaN`. -/
def jsStringToNumber (s : String) : JsNum :=
  match jsTrim s with
  | [] => .fin 0
  | c :: cs =>
    match parseRadix (c :: cs) with
    | some q => .fin q
    | none =>
      let signedRest : ℚ × List Char :=
        if c = '+' then (1, cs) else if c = '-' then (-1, cs) else (1, c :: cs)
      if signedRest.2 = "Infinity".data then
        (if signedRest.1 = 1 then .inf else .negInf)
      else
        match parseDecLiteral signedRest.2 with
        | some q => .fin (signedRest.1 * q)
        | none => .nan

/-- `Number(req.query.elo || 1200)` (`src/unnamed/part_001` line 100): the
skill rating used to build the generation prompt.  An absent parameter (and
an empty one, which is falsy) defaults before the coercion; any other string
goes through `Number`, which yields `NaN` on non-numeric input. -/
def eloOf (eloParam : Option String) : JsNum :=
  match eloParam with
  | none => .fin 1200
  | some s => if s = "" then .fin 1200 else jsStringToNumber s

theorem bank_getD_mem (i : ℕ) (hi : i < 3) : bank.getD i JsonVal.null ∈ bank := by
  match i, hi with
  | 0, _ => exact .head _
  | 1, _ => exact .tail _ (.head _)
  | 2, _ => exact .tail _ (.tail _ (.head _))

/-- C8: outside llm mode the quiz route serves the static pick; for every
randomness draw in `[0, 1)` the served item is a member of the fixed 3-item
bank, and the selection is uniform: bank item `i` is selected exactly on
`[i/3, (i+1)/3)`, and these three cells all have measure `1/3`. -/
theorem quizHandler_static_uniform (quizMode : String)
    (jsonParse : String → Except String JsonVal) (upstream : QuizUpstreamOutcome)
    (rand : ℚ) (hmode : quizMode ≠ "llm") (h0 : 0 ≤ rand) (h1 : rand < 1) :
    quizHandler quizMode jsonParse upstream rand = staticPick rand ∧
    (staticPick rand).status = 200 ∧
    (staticPick rand).body = .json (bank.getD (staticIndex rand) JsonVal.null) ∧
    staticIndex rand < bank.length ∧
    bank.getD (staticIndex rand) JsonVal.null ∈ bank ∧
    (∀ i : ℕ, i < 3 →
      (staticIndex rand = i ↔ ((i : ℚ) / 3 ≤ rand ∧ rand < ((i : ℚ) + 1) / 3))) ∧
    (∀ i : ℕ, ((i : ℚ) + 1) / 3 - (i : ℚ) / 3 = 1 / 3) := by
  have hfl0 : 0 ≤ ⌊rand * 3⌋ := Int.floor_nonneg.2 (by positivity)
  have hlt3 : ⌊rand * 3⌋ < 3 := Int.floor_lt.2 (by push_cast; linarith)
  have hidx : staticIndex rand < 3 := by unfold staticIndex; omega
  refine ⟨by simp [quizHandler, hmode], rfl, rfl, hidx, bank_getD_mem _ hidx, ?_,
    fun i => by ring⟩
  intro i hi
  unfold staticIndex
  constructor
  · intro h
    have hz : ⌊rand * 3⌋ = (i : ℤ) := by omega
    rw [Int.floor_eq_iff] at hz
    push_cast at hz
    constructor
    · rw [div_le_iff₀ (by norm_num : (0:ℚ) < 3)]
      linarith [hz.1]
    · rw [lt_div_iff₀ (by norm_num : (0:ℚ) < 3)]
      linarith [hz.2]
  · rintro ⟨hl, hr⟩
    have hz : ⌊rand * 3⌋ = (i : ℤ) := by
      rw [Int.floor_eq_iff]
      push_cast
      exact ⟨(div_le_iff₀ (by norm_num : (0:ℚ) < 3)).1 hl,
        (lt_div_iff₀ (by norm_num : (0:ℚ) < 3)).1 hr⟩
    omega

/-- Witness for C8: at `quizMode = "static"` and the draw `1/2` the handler
serves the static pick. -/
theorem quizHandler_static_uniform_witness :
    quizHandler "static" (fun _ => Except.error "unused") (.fetchThrow "unused") (1/2) =
      staticPick (1/2) :=
  (quizHandler_static_uniform "static" (fun _ => Except.error "unused")
    (.fetchThrow "unused") (1/2) (by decide) (by norm_num) (by norm_num)).1

/-- A syntactically valid JSON object that violates the QuizItem schema: its
answer index 5 does not index into its 3 options. -/
def badQuizItem : JsonVal :=
  .obj [("type", .str "mcq"), ("q", .str "Pick one"),
    ("opts", .arr [.str "A", .str "B", .str "C"]), ("a", .num 5)]

/-- A concrete `JSON.parse` behavior that accepts the reply text and yields
`badQuizItem` (as the real `JSON.parse` does on that item's JSON text). -/
def badItemParse : String → Except String JsonVal := fun _ => .ok badQuizItem

/-- C1 counterexample: in llm mode a transport failure of the
quiz-generation call does not fall back to the static bank — it throws into
the route's outer catch and returns 500 `Server error` (while static-mode
behavior always has status 200); and a reply that parses as JSON is returned
verbatim even when it violates the QuizItem schema (answer index 5 with 3
options), rather than being discarded. -/
theorem quizHandler_llm_counterexample :
    quizHandler "llm" badItemParse (.fetchThrow "fetch failed") 0 =
      ⟨500, .serverError "fetch failed"⟩ ∧
    (staticPick 0).status = 200 ∧
    (500 : ℕ) ≠ 200 ∧
    quizHandler "llm" badItemParse (.resp true (.ok ⟨some "reply"⟩)) 0 =
      ⟨200, .json badQuizItem⟩ ∧
    validQuizItem badQuizItem = false :=
  ⟨rfl, rfl, by decide, rfl, by decide⟩

/-- C1 amended: in llm mode the quiz handler falls back to static-mode
behavior only on a non-success response status or when `JSON.parse` of the
reply text fails; a transport failure, or an `r.json()` failure on the
response envelope, instead surfaces as a 500 `Server error`; and a reply
text accepted by `JSON.parse` is returned to the caller verbatim, with no
QuizItem schema validation. -/
theorem quizHandler_llm_amended (jsonParse : String → Except String JsonVal) (rand : ℚ) :
    (∀ e, quizHandler "llm" jsonParse (.fetchThrow e) rand = ⟨500, .serverError e⟩) ∧
    (∀ json, quizHandler "llm" jsonParse (.resp false json) rand = staticPick rand) ∧
    (∀ e, quizHandler "llm" jsonParse (.resp true (.error e)) rand =
      ⟨500, .serverError e⟩) ∧
    (∀ c v, jsonParse (quizReplyText c) = .ok v →
      quizHandler "llm" jsonParse (.resp true (.ok ⟨c⟩)) rand = ⟨200, .json v⟩) ∧
    (∀ c e, jsonParse (quizReplyText c) = .error e →
      quizHandler "llm" jsonParse (.resp true (.ok ⟨c⟩)) rand = staticPick rand) := by
  refine ⟨fun e => rfl, fun json => rfl, fun e => rfl, fun c v h => ?_, fun c e h => ?_⟩
  · simp [quizHandler, h]
  · simp [quizHandler, h]

/-- Witness for C1: a reply text rejected by `JSON.parse` falls through to
the static pick. -/
theorem quizHandler_llm_amended_witness :
    quizHandler "llm" (fun _ => Except.error "bad json")
      (.resp true (.ok ⟨some "not json"⟩)) 0 = staticPick 0 :=
  (quizHandler_llm_amended (fun _ => Except.error "bad json") 0).2.2.2.2 (some "not json")
    "bad json" rfl

/-- C9 counterexample: a present but non-numeric `elo` query parameter is not
replaced by the default 1200 — `Number('abc')` is `NaN`, and the generation
prompt is built from that `NaN`. -/
theorem eloOf_nonnumeric_nan :
    eloOf (some "abc") = JsNum.nan ∧ JsNum.nan ≠ JsNum.fin 1200 :=
  ⟨by decide, by decide⟩

/-- C9 amended: the skill rating equals `Number` of the `elo` query
parameter whenever one is supplied and non-empty (so a numeral gives its
numeric value — decimal `"1500" ↦ 1500` as well as radix forms such as
`"0x10" ↦ 16` — but a non-numeric string gives `NaN`), and defaults to 1200
only when the parameter is absent or the empty string. -/
theorem eloOf_amended (eloParam : Option String) :
    (eloParam = none → eloOf eloParam = .fin 1200) ∧
    (eloParam = some "" → eloOf eloParam = .fin 1200) ∧
    (∀ s, eloParam = some s → s ≠ "" → eloOf eloParam = jsStringToNumber s) ∧
    eloOf (some "1500") = .fin 1500 ∧
    eloOf (some "0x10") = .fin 16 := by
  refine ⟨?_, ?_, ?_, ?_, ?_⟩
  · rintro rfl; rfl
  · rintro rfl; rfl
  · rintro s rfl hne; simp [eloOf, hne]
  · show JsNum.fin ((1 : ℚ) * ((digitsVal ['1','5','0','0'] : ℕ) : ℚ)) = JsNum.fin 1500
    norm_num [digitsVal, digitVal, show '1'.toNat = 49 from rfl,
      show '5'.toNat = 53 from rfl, show '0'.toNat = 48 from rfl]
  · show JsNum.fin ((radixVal 16 hexDigitVal ['1', '0'] : ℕ) : ℚ) = JsNum.fin 16
    norm_num [radixVal, show hexDigitVal '1' = 1 from rfl,
      show hexDigitVal '0' = 0 from rfl]

/-- Witness for C9: a supplied non-empty parameter goes through the `Number`
coercion. -/
theorem eloOf_amended_witness :
    eloOf (some "abc") = jsStringToNumber "abc" :=
  (eloOf_amended (some "abc")).2.2.1 "abc" rfl (by decide)

/-- Witness for C4: the amended theorem applied at a concrete prompt. -/
theorem cappedTickers_amended_witness :
    cappedTickers "what is BTC" = (foundTickers "what is BTC").take 3 :=
  (cappedTickers_amended "what is BTC").2.1
